import Mathlib

/-!
Verification of the scheduled notification dispatch engine of the
reminder service (src/index.js).  The source bundles several near-duplicate
service variants; the definitions below embed the functions the claims are
about:

- the idempotency store (loadSentItems / saveSentItem) with its 7-day
  retention pruning;
- the trigger-window evaluators: the whole-hours window of the hourly SMS
  and email variants (differenceInHours, plus/minus 2 hours) and the
  minute-precise window of the WhatsApp and precise-SMS variants
  (differenceInMinutes, plus/minus toleranceMinutes);
- the dispatch cycle processBusinessReminders and the approval sub-cycle
  checkApprovals of the first (SMS + confirmation) variant;
- phone-number normalization (formatPhoneNumber);
- the clock-aligned scheduler delay computation (scheduleNextRun);
- the poll-interval and tolerance constants of each deployment variant.

Times are modelled as integer milliseconds since the epoch.  The JavaScript
Date constructor that parses a booking date and time string is external
platform code; the cycle takes it as a parameter (parseDT).  The network
senders (Twilio, Base44 email) are external; a cycle takes the outcome of a
send as an oracle (sendOk).
-/

namespace ReminderService

/-- Milliseconds per minute. -/
def msPerMinute : Int := 60000

/-- Milliseconds per hour. -/
def msPerHour : Int := 3600000

/-- Milliseconds per day. -/
def msPerDay : Int := 86400000

/-- A JavaScript numeric field that may be absent: undefined or a number.
Used for reminder_hours_before, whose absence or zero value both count as
falsy under the JavaScript or-default idiom. -/
inductive JsNum where
  | undef : JsNum
  | num : Int → JsNum
deriving Repr, DecidableEq

/-- A business (tenant) record as read from the provider.  reminder_enabled
is tri-state in JavaScript (true, false, or absent); the source tests it
with a strict inequality against false. -/
structure Business where
  id : String
  name : String
  reminder_hours_before : JsNum
  reminder_enabled : Option Bool
deriving Repr, DecidableEq

/-- A booking (event) record as read from the provider.  client_phone is a
string; the empty string stands for the JavaScript falsy missing phone. -/
structure Booking where
  id : String
  business_id : String
  date : String
  time : String
  status : String
  client_phone : String
  booked_by_owner : Bool
deriving Repr, DecidableEq

/-- Embeds the idiom reminder_hours_before or-else 12: a missing or zero
value falls back to the default of 12 hours. -/
def reminderHoursOf (b : Business) : Int :=
  match b.reminder_hours_before with
  | JsNum.undef => 12
  | JsNum.num n => if n = 0 then 12 else n

/-- Embeds reminder_enabled strict-neq false: reminders are on unless the
flag is literally false. -/
def reminderEnabledOf (b : Business) : Bool :=
  decide (b.reminder_enabled ≠ some false)

/-- The reminder dedup key: booking id, date and time joined by hyphens. -/
def reminderKey (b : Booking) : String :=
  b.id ++ ("-") ++ b.date ++ ("-") ++ b.time

/-- The confirmation dedup key namespace: booking id with a confirmed tag. -/
def confirmationKey (b : Booking) : String :=
  b.id ++ ("-confirmed")

/-- Embeds the JavaScript object assignment items[itemKey] = now : replace
the binding when the key is present, otherwise append it. -/
def setKey (items : List (String × Int)) (key : String) (now : Int) :
    List (String × Int) :=
  if items.any (fun p => p.1 == key) then
    items.map (fun p => if p.1 = key then (key, now) else p)
  else
    items ++ [(key, now)]

/-- Embeds saveSentItem: read the file, bind the key to the current
timestamp, write the file back.  The file is the association list. -/
def saveSentItem (file : List (String × Int)) (itemKey : String) (now : Int) :
    List (String × Int) :=
  setKey file itemKey now

/-- The retention filter of loadSentItems: keep an entry when its timestamp
is strictly newer than seven days before now. -/
def cleanItems (items : List (String × Int)) (now : Int) :
    List (String × Int) :=
  items.filter (fun p => decide (now - 7 * msPerDay < p.2))

/-- Embeds loadSentItems: prune entries older than the 7-day retention
horizon, write the pruned file back, and return the surviving key set.
The result is the pair of the written-back file and the returned keys. -/
def loadSentItems (file : List (String × Int)) (now : Int) :
    List (String × Int) × List String :=
  let cleaned := cleanItems file now
  (cleaned, cleaned.map Prod.fst)

/-- Embeds the whole-hours trigger window of the hourly SMS and email
variants: hoursUntil is differenceInHours (truncation toward zero, as
date-fns does) and the reminder fires when it lies within two hours of the
configured lead time. -/
def shouldSendHours (reminderHours msUntil : Int) : Bool :=
  let hoursUntil := Int.tdiv msUntil msPerHour
  decide (reminderHours - 2 ≤ hoursUntil) && decide (hoursUntil ≤ reminderHours + 2)

/-- Embeds the minute-precise trigger window of the WhatsApp (tolerance 10)
and precise-SMS (tolerance 30) variants: minutesUntil is
differenceInMinutes (truncation toward zero) and the reminder fires when
targetMinutes - tol ≤ minutesUntil ≤ targetMinutes + tol with
targetMinutes = reminderHours * 60. -/
def shouldSendMinutes (reminderHours tol msUntil : Int) : Bool :=
  let minutesUntil := Int.tdiv msUntil msPerMinute
  let targetMinutes := reminderHours * 60
  let lowerBound := targetMinutes - tol
  let upperBound := targetMinutes + tol
  decide (lowerBound ≤ minutesUntil) && decide (minutesUntil ≤ upperBound)

/-- The mutable state threaded through a dispatch cycle: the in-memory set
of sent keys, the persisted file, and the log of keys for which the sender
was invoked. -/
structure CycleState where
  sentSet : List String
  file : List (String × Int)
  sends : List String
deriving Repr, DecidableEq

/-- The state a process starts from: the key set and pruned file produced
by loadSentItems, with no sends performed yet. -/
def startupState (file : List (String × Int)) (now : Int) : CycleState :=
  { sentSet := (loadSentItems file now).2
    file := (loadSentItems file now).1
    sends := [] }

/-- Embeds the body of the booking loop of processBusinessReminders (first
variant): skip non-confirmed bookings and bookings without a phone; when
the whole-hours window fires and the key is not yet recorded, invoke the
sender, and on success record the key in the in-memory set and the file.
parseDT is the external Date constructor on the date and time strings;
sendOk is the outcome reported by the external sender.  Returns the new
state and whether a successful send happened. -/
def processBooking (parseDT : String → String → Int) (sendOk : Booking → Bool)
    (reminderHours now : Int) (st : CycleState) (b : Booking) :
    CycleState × Bool :=
  if b.status ≠ ("confirmed") then (st, false)
  else if b.client_phone = ("") then (st, false)
  else if shouldSendHours reminderHours (parseDT b.date b.time - now) then
    if reminderKey b ∈ st.sentSet then (st, false)
    else if sendOk b then
      ({ sentSet := st.sentSet ++ [reminderKey b]
         file := saveSentItem st.file (reminderKey b) now
         sends := st.sends ++ [reminderKey b] }, true)
    else ({ st with sends := st.sends ++ [reminderKey b] }, false)
  else (st, false)

/-- One iteration of the booking loop threading the sent counter: run the
booking body and bump sentCount on a successful send. -/
def cycleStep (parseDT : String → String → Int) (sendOk : Booking → Bool)
    (reminderHours now : Int) (acc : CycleState × Nat) (b : Booking) :
    CycleState × Nat :=
  let r := processBooking parseDT sendOk reminderHours now acc.1 b
  (r.1, acc.2 + if r.2 then 1 else 0)

/-- Embeds processBusinessReminders (first variant): when the business has
reminders disabled return immediately with a sent count of zero and no
state change; otherwise fold the booking loop over the bookings of this
business (fetchBookings filters the global booking list by business id).
Returns the final state and the sent count. -/
def processBusinessReminders (parseDT : String → String → Int)
    (sendOk : Booking → Bool) (now : Int) (business : Business)
    (allBookings : List Booking) (st : CycleState) : CycleState × Nat :=
  if reminderEnabledOf business = false then (st, 0)
  else
    (allBookings.filter (fun b => b.business_id == business.id)).foldl
      (cycleStep parseDT sendOk (reminderHoursOf business) now)
      (st, 0)

/-- Embeds the body of the booking loop of checkApprovals: skip
non-confirmed bookings, bookings without a phone, owner-made bookings,
already-confirmed keys, and bookings whose business is unknown; otherwise
invoke the sender and record the confirmation key on success. -/
def processApproval (sendOk : Booking → Bool) (now : Int)
    (businesses : List Business) (st : CycleState) (b : Booking) :
    CycleState × Bool :=
  if b.status ≠ ("confirmed") then (st, false)
  else if b.client_phone = ("") then (st, false)
  else if b.booked_by_owner then (st, false)
  else if confirmationKey b ∈ st.sentSet then (st, false)
  else if (businesses.find? (fun biz => biz.id == b.business_id)).isNone then
    (st, false)
  else if sendOk b then
    ({ sentSet := st.sentSet ++ [confirmationKey b]
       file := saveSentItem st.file (confirmationKey b) now
       sends := st.sends ++ [confirmationKey b] }, true)
  else ({ st with sends := st.sends ++ [confirmationKey b] }, false)

/-- The digit-stripping step of formatPhoneNumber: remove every character
that is not a decimal digit. -/
def cleanDigits (phone : String) : String :=
  String.mk (phone.data.filter Char.isDigit)

/-- The startsWith test on the character list of a string (the cleaned
phone string is plain ASCII digits, where this agrees with the JavaScript
String.startsWith). -/
def strStartsWith (s pat : String) : Bool :=
  pat.data.isPrefixOf s.data

/-- The substring(1) step on the character list of a string: drop the
leading character. -/
def strDropOne (s : String) : String :=
  String.mk (s.data.drop 1)

/-- Embeds formatPhoneNumber of the SMS variants: null on a falsy (empty)
input; otherwise strip non-digits, strip one leading local zero, prepend
the country code 972 when absent, and prefix a plus sign. -/
def formatPhoneNumber (phone : String) : Option String :=
  if phone = ("") then none
  else
    let c0 := cleanDigits phone
    let c1 := if strStartsWith c0 ("0") then strDropOne c0 else c0
    let c2 := if strStartsWith c1 ("972") then c1 else ("972") ++ c1
    some (("+") ++ c2)

/-- Embeds the delay computation of scheduleNextRun: minutes until the next
quarter-hour slot via the ceiling division of the source, converted to
milliseconds and corrected by the current seconds and milliseconds. -/
def msUntilNextRun (minutes seconds milliseconds : Nat) : Int :=
  let nextSlot : Nat := ((minutes + 1 + 14) / 15) * 15
  let minutesUntilNext : Int := (nextSlot : Int) - (minutes : Int)
  minutesUntilNext * 60000 - (seconds : Int) * 1000 - (milliseconds : Int)

/-- The fixed repeat interval scheduleNextRun hands to setInterval after
the first aligned run: fifteen minutes. -/
def alignedIntervalMs : Int := 15 * 60 * 1000

/-- Poll interval of the hourly SMS variant with the plus/minus 30 minute
window (setInterval with ONE_HOUR). -/
def pollIntervalMsPreciseSMS : Int := 60 * 60 * 1000

/-- Half-width in minutes of the trigger window of the hourly SMS variant
with the plus/minus 30 minute window. -/
def toleranceMinutesPreciseSMS : Int := 30

/-- Poll interval of the WhatsApp variants: fifteen minutes, clock
aligned. -/
def pollIntervalMsWhatsApp : Int := 15 * 60 * 1000

/-- Half-width in minutes of the trigger window of the WhatsApp
variants. -/
def toleranceMinutesWhatsApp : Int := 10

/-- Poll interval of the hourly whole-hours SMS and email variants. -/
def pollIntervalMsHourly : Int := 60 * 60 * 1000

/-- Effective half-width in minutes of the whole-hours window: two
hours. -/
def toleranceMinutesHourly : Int := 120

/-! Helper lemmas shared by the claim theorems. -/

/-- Every entry of a file after a key assignment either was already there
or carries the assigned key. -/
lemma mem_setKey {items : List (String × Int)} {key : String} {now : Int}
    {k : String} {ts : Int} (h : (k, ts) ∈ setKey items key now) :
    (k, ts) ∈ items ∨ k = key := by
  unfold setKey at h
  split at h
  · rcases List.mem_map.mp h with ⟨p, hp, he⟩
    by_cases hk : p.1 = key
    · right
      rw [if_pos hk] at he
      exact (congrArg Prod.fst he).symm
    · left
      rw [if_neg hk] at he
      exact he ▸ hp
  · rcases List.mem_append.mp h with h1 | h1
    · exact Or.inl h1
    · right
      have := List.mem_singleton.mp h1
      exact ((Prod.mk.injEq _ _ _ _).mp this).1

/-- The booking loop body preserves membership of a key in the in-memory
set and, for such a key, never logs a new send of it. -/
lemma processBooking_preserves {parseDT : String → String → Int}
    {sendOk : Booking → Bool} {rh now : Int} {st : CycleState} {b : Booking}
    {key : String} (hmem : key ∈ st.sentSet) (hns : key ∉ st.sends) :
    key ∈ (processBooking parseDT sendOk rh now st b).1.sentSet ∧
      key ∉ (processBooking parseDT sendOk rh now st b).1.sends := by
  unfold processBooking
  split
  · exact ⟨hmem, hns⟩
  · split
    · exact ⟨hmem, hns⟩
    · split
      · split
        · exact ⟨hmem, hns⟩
        · rename_i hnotin
          have hne : key ≠ reminderKey b := fun he => hnotin (he ▸ hmem)
          split
          · refine ⟨List.mem_append.mpr (Or.inl hmem), fun hc => ?_⟩
            rcases List.mem_append.mp hc with hc | hc
            · exact hns hc
            · exact hne (List.mem_singleton.mp hc)
          · refine ⟨hmem, fun hc => ?_⟩
            rcases List.mem_append.mp hc with hc | hc
            · exact hns hc
            · exact hne (List.mem_singleton.mp hc)
      · exact ⟨hmem, hns⟩

/-- The whole booking fold preserves the same invariant. -/
lemma foldl_cycleStep_preserves {parseDT : String → String → Int}
    {sendOk : Booking → Bool} {rh now : Int} {key : String} :
    ∀ (bs : List Booking) (acc : CycleState × Nat),
      key ∈ acc.1.sentSet → key ∉ acc.1.sends →
      key ∈ (bs.foldl (cycleStep parseDT sendOk rh now) acc).1.sentSet ∧
        key ∉ (bs.foldl (cycleStep parseDT sendOk rh now) acc).1.sends := by
  intro bs
  induction bs with
  | nil => intro acc h1 h2; exact ⟨h1, h2⟩
  | cons b rest ih =>
    intro acc h1 h2
    have hstep := @processBooking_preserves parseDT sendOk rh now acc.1 b key h1 h2
    exact ih _ hstep.1 hstep.2

/-! Claim theorems. -/

/-- C1: once an (event id, date, time) dedup key has been recorded in the
idempotency store with a timestamp inside the 7-day retention horizon, a
process restart that reloads the store from the file and runs the dispatch
cycle again performs no send for that key. -/
theorem dedup_across_restart (file : List (String × Int)) (t now : Int)
    (key : String) (parseDT : String → String → Int) (sendOk : Booking → Bool)
    (business : Business) (allBookings : List Booking)
    (hmem : (key, t) ∈ file) (hfresh : now - 7 * msPerDay < t) :
    key ∉ (processBusinessReminders parseDT sendOk now business allBookings
      (startupState file now)).1.sends := by
  have hkey : key ∈ (startupState file now).sentSet := by
    unfold startupState loadSentItems cleanItems
    exact List.mem_map.mpr
      ⟨(key, t), List.mem_filter.mpr ⟨hmem, by simpa using hfresh⟩, rfl⟩
  have hsends : key ∉ (startupState file now).sends := by
    unfold startupState
    simp
  unfold processBusinessReminders
  split
  · exact hsends
  · exact (foldl_cycleStep_preserves _ (startupState file now, 0) hkey hsends).2

/-- Witness for dedup_across_restart: a concrete recorded key, reloaded one
cycle later, is not sent again even though the booking is in-window and the
sender would succeed. -/
theorem dedup_across_restart_witness :
    ((("bk1-2025-10-12-08:00") , (100 : Int)) ∈
        [((("bk1-2025-10-12-08:00") : String), (100 : Int))]) ∧
    ((1000 : Int) - 7 * msPerDay < 100) ∧
    ("bk1-2025-10-12-08:00") ∉
      (processBusinessReminders (fun _ _ => 43201000) (fun _ => true) 1000
        (Business.mk ("biz1") ("B") JsNum.undef none)
        [Booking.mk ("bk1") ("biz1") ("2025-10-12") ("08:00") ("confirmed")
          ("0501234567") false]
        (startupState [((("bk1-2025-10-12-08:00") : String), (100 : Int))]
          1000)).1.sends :=
  ⟨by decide, by decide,
    dedup_across_restart _ 100 1000 _ _ _ _ _ (by decide) (by decide)⟩

/-- C9: a business whose reminder-enabled flag is false produces no send
for any booking regardless of window state, returns a sent count of zero,
and leaves the idempotency store unchanged. -/
theorem disabled_business_no_send (parseDT : String → String → Int)
    (sendOk : Booking → Bool) (now : Int) (business : Business)
    (allBookings : List Booking) (st : CycleState)
    (hdis : business.reminder_enabled = some false) :
    processBusinessReminders parseDT sendOk now business allBookings st =
      (st, 0) := by
  have h : reminderEnabledOf business = false := by
    unfold reminderEnabledOf
    rw [hdis]
    simp
  unfold processBusinessReminders
  rw [if_pos h]

/-- Witness for disabled_business_no_send on a concrete disabled tenant. -/
theorem disabled_business_no_send_witness :
    (Business.mk ("biz2") ("B2") (JsNum.num 3) (some false)).reminder_enabled =
      some false ∧
    processBusinessReminders (fun _ _ => 0) (fun _ => true) 0
      (Business.mk ("biz2") ("B2") (JsNum.num 3) (some false))
      [Booking.mk ("bk9") ("biz2") ("2025-10-12") ("08:00") ("confirmed")
        ("0501234567") false]
      (CycleState.mk [] [] []) = (CycleState.mk [] [] [], 0) :=
  ⟨rfl, disabled_business_no_send _ _ _ _ _ _ rfl⟩

/-- C10: a falsy reminder_hours_before (absent, or the number zero) makes
the dispatch cycle fall back to the default 12-hour lead time, so a lead
time of zero hours cannot be configured. -/
theorem falsy_lead_time_defaults (b : Business) :
    ((b.reminder_hours_before = JsNum.undef ∨
        b.reminder_hours_before = JsNum.num 0) →
      reminderHoursOf b = 12) ∧ reminderHoursOf b ≠ 0 := by
  rcases b with ⟨bid, bname, rhb, ren⟩
  rcases rhb with _ | n
  · exact ⟨fun _ => rfl, by simp [reminderHoursOf]⟩
  · constructor
    · intro h
      have hn : n = 0 := by
        rcases h with h | h
        · exact absurd h (by simp)
        · simp only [JsNum.num.injEq] at h
          exact h
      simp [reminderHoursOf, hn]
    · by_cases hn : n = 0
      · simp [reminderHoursOf, hn]
      · simp [reminderHoursOf, hn]

/-- Witness for falsy_lead_time_defaults at a business configured with a
zero lead time. -/
theorem falsy_lead_time_defaults_witness :
    ((Business.mk ("b3") ("B3") (JsNum.num 0) none).reminder_hours_before =
        JsNum.undef ∨
      (Business.mk ("b3") ("B3") (JsNum.num 0) none).reminder_hours_before =
        JsNum.num 0) ∧
    reminderHoursOf (Business.mk ("b3") ("B3") (JsNum.num 0) none) = 12 :=
  ⟨Or.inr rfl, (falsy_lead_time_defaults _).1 (Or.inr rfl)⟩

/-- C2 (counterexample): in the whole-hours variant with the default
12-hour lead time (target 720 minutes, effective tolerance 120 minutes),
an event at now + 841 minutes, which is now + L + T + 1, is judged
in-window even though 841 exceeds target + tolerance, so the claimed
fires-exactly-when formula and the never-fires upper edge fail for that
variant. -/
theorem window_evaluation_cex :
    shouldSendHours 12 ((12 * 60 + 120 + 1) * 60000) = true ∧
    ¬ ((12 * 60 + 120 + 1 : Int) ≤ 12 * 60 + 120) := by
  decide

/-- C2 (amended): the minute-precise variants fire exactly when
target - tol ≤ minutesUntil ≤ target + tol, always fire at now + L, and
never fire at now + L + T + 1 or now + L - T - 1 minutes.  The whole-hours
variant also fires at now + L, but for lead times of at least 3 hours its
window at millisecond granularity is the asymmetric interval from
(rh - 2) hours inclusive to (rh + 3) hours exclusive, which contains
now + L + T + 1 minutes. -/
theorem window_evaluation_amended (rh tol ms : Int) (htol : 0 ≤ tol) :
    (shouldSendMinutes rh tol (rh * 60 * 60000) = true) ∧
    (shouldSendMinutes rh tol ((rh * 60 + tol + 1) * 60000) = false) ∧
    (shouldSendMinutes rh tol ((rh * 60 - tol - 1) * 60000) = false) ∧
    (shouldSendMinutes rh tol ms = true ↔
      rh * 60 - tol ≤ Int.tdiv ms msPerMinute ∧
        Int.tdiv ms msPerMinute ≤ rh * 60 + tol) ∧
    (shouldSendHours rh (rh * 60 * 60000) = true) ∧
    (3 ≤ rh →
      (shouldSendHours rh ms = true ↔
        (rh - 2) * msPerHour ≤ ms ∧ ms < (rh + 3) * msPerHour)) := by
  refine ⟨?_, ?_, ?_, ?_, ?_, ?_⟩
  · have h1 : Int.tdiv (rh * 60 * 60000) 60000 = rh * 60 :=
      Int.mul_tdiv_cancel _ (by norm_num)
    simp only [shouldSendMinutes, msPerMinute, Bool.and_eq_true,
      decide_eq_true_eq]
    omega
  · have h1 : Int.tdiv ((rh * 60 + tol + 1) * 60000) 60000 =
        rh * 60 + tol + 1 :=
      Int.mul_tdiv_cancel _ (by norm_num)
    rw [← Bool.not_eq_true]
    simp only [shouldSendMinutes, msPerMinute, Bool.and_eq_true,
      decide_eq_true_eq]
    omega
  · have h1 : Int.tdiv ((rh * 60 - tol - 1) * 60000) 60000 =
        rh * 60 - tol - 1 :=
      Int.mul_tdiv_cancel _ (by norm_num)
    rw [← Bool.not_eq_true]
    simp only [shouldSendMinutes, msPerMinute, Bool.and_eq_true,
      decide_eq_true_eq]
    omega
  · simp only [shouldSendMinutes, msPerMinute, Bool.and_eq_true,
      decide_eq_true_eq]
  · have h0 : rh * 60 * 60000 = rh * 3600000 := by ring
    have h1 : Int.tdiv (rh * 3600000) 3600000 = rh :=
      Int.mul_tdiv_cancel _ (by norm_num)
    rw [h0]
    simp only [shouldSendHours, msPerHour, Bool.and_eq_true, decide_eq_true_eq]
    omega
  · intro h3
    simp only [shouldSendHours, msPerHour, Bool.and_eq_true, decide_eq_true_eq]
    rcases le_or_lt 0 ms with hpos | hneg
    · rw [Int.tdiv_eq_ediv hpos (by norm_num)]
      omega
    · have hle : Int.tdiv ms 3600000 ≤ 0 := by
        have h1 : Int.tdiv (-(-ms)) 3600000 = -Int.tdiv (-ms) 3600000 :=
          Int.neg_tdiv _ _
        have h2 : 0 ≤ Int.tdiv (-ms) 3600000 :=
          Int.tdiv_nonneg (by omega) (by norm_num)
        rw [neg_neg] at h1
        omega
      constructor
      · intro h
        obtain ⟨ha, hb⟩ := h
        omega
      · intro h
        obtain ⟨ha, hb⟩ := h
        omega

/-- Witness for window_evaluation_amended at the precise-SMS tolerance. -/
theorem window_evaluation_amended_witness :
    (0 : Int) ≤ 30 ∧
    shouldSendMinutes 12 30 (12 * 60 * 60000) = true ∧
    shouldSendMinutes 12 30 ((12 * 60 + 30 + 1) * 60000) = false :=
  ⟨by decide, (window_evaluation_amended 12 30 0 (by decide)).1,
    (window_evaluation_amended 12 30 0 (by decide)).2.1⟩

/-- C4 (counterexample): the hourly-polled SMS variant with the plus or
minus 30 minute window has a poll interval exactly equal to, not strictly
smaller than, twice its tolerance in milliseconds. -/
theorem poll_interval_cex :
    pollIntervalMsPreciseSMS = 2 * (toleranceMinutesPreciseSMS * msPerMinute) ∧
    ¬ pollIntervalMsPreciseSMS <
        2 * (toleranceMinutesPreciseSMS * msPerMinute) := by
  decide

/-- C4 (amended): every variant's poll interval is at most twice its
window tolerance; it is strictly smaller for the clock-aligned WhatsApp
variants and the hourly whole-hours variants, and exactly equal for the
hourly SMS variant with the plus or minus 30 minute window. -/
theorem poll_interval_amended :
    pollIntervalMsPreciseSMS ≤ 2 * (toleranceMinutesPreciseSMS * msPerMinute) ∧
    pollIntervalMsWhatsApp < 2 * (toleranceMinutesWhatsApp * msPerMinute) ∧
    pollIntervalMsHourly < 2 * (toleranceMinutesHourly * msPerMinute) ∧
    alignedIntervalMs = pollIntervalMsWhatsApp := by
  decide

/-- Out of window, the booking step returns the state unchanged and no
send. -/
lemma processBooking_skip_out_of_window {parseDT : String → String → Int}
    {sendOk : Booking → Bool} {rh now : Int} {st : CycleState} {b : Booking}
    (h : shouldSendHours rh (parseDT b.date b.time - now) = false) :
    processBooking parseDT sendOk rh now st b = (st, false) := by
  unfold processBooking
  split
  · rfl
  · split
    · rfl
    · have hnot : ¬ (shouldSendHours rh (parseDT b.date b.time - now) = true) := by
        simp [h]
      rw [if_neg hnot]

/-- On a failed send, the booking step keeps the in-memory set and file
unchanged and reports no success. -/
lemma processBooking_fail_keeps_store {parseDT : String → String → Int}
    {sendOk : Booking → Bool} {rh now : Int} {st : CycleState} {b : Booking}
    (h : sendOk b = false) :
    (processBooking parseDT sendOk rh now st b).1.sentSet = st.sentSet ∧
    (processBooking parseDT sendOk rh now st b).1.file = st.file ∧
    (processBooking parseDT sendOk rh now st b).2 = false := by
  unfold processBooking
  split
  · exact ⟨rfl, rfl, rfl⟩
  · split
    · exact ⟨rfl, rfl, rfl⟩
    · split
      · split
        · exact ⟨rfl, rfl, rfl⟩
        · have hnot : ¬ (sendOk b = true) := by simp [h]
          rw [if_neg hnot]
          exact ⟨rfl, rfl, rfl⟩
      · exact ⟨rfl, rfl, rfl⟩

/-- Any key present in the set after a booking step was present before or
is the booking's own key added after a successful send. -/
lemma processBooking_sentSet_sub {parseDT : String → String → Int}
    {sendOk : Booking → Bool} {rh now : Int} {st : CycleState} {b : Booking}
    {k : String}
    (h : k ∈ (processBooking parseDT sendOk rh now st b).1.sentSet) :
    k ∈ st.sentSet ∨ (k = reminderKey b ∧ sendOk b = true) := by
  unfold processBooking at h
  split at h
  · exact Or.inl h
  · split at h
    · exact Or.inl h
    · split at h
      · split at h
        · exact Or.inl h
        · split at h
          · rename_i hsend
            rcases List.mem_append.mp h with h1 | h1
            · exact Or.inl h1
            · exact Or.inr ⟨List.mem_singleton.mp h1, hsend⟩
          · exact Or.inl h
      · exact Or.inl h

/-- Any file entry present after a booking step was present before or
carries the booking's own key written after a successful send. -/
lemma processBooking_file_sub {parseDT : String → String → Int}
    {sendOk : Booking → Bool} {rh now : Int} {st : CycleState} {b : Booking}
    {k : String} {ts : Int}
    (h : (k, ts) ∈ (processBooking parseDT sendOk rh now st b).1.file) :
    (k, ts) ∈ st.file ∨ (k = reminderKey b ∧ sendOk b = true) := by
  unfold processBooking at h
  split at h
  · exact Or.inl h
  · split at h
    · exact Or.inl h
    · split at h
      · split at h
        · exact Or.inl h
        · split at h
          · rename_i hsend
            rcases mem_setKey h with h1 | h1
            · exact Or.inl h1
            · exact Or.inr ⟨h1, hsend⟩
          · exact Or.inl h
      · exact Or.inl h

/-- On a failed send, the approval step keeps the in-memory set and file
unchanged and reports no success. -/
lemma processApproval_fail_keeps_store {sendOk : Booking → Bool} {now : Int}
    {businesses : List Business} {st : CycleState} {b : Booking}
    (h : sendOk b = false) :
    (processApproval sendOk now businesses st b).1.sentSet = st.sentSet ∧
    (processApproval sendOk now businesses st b).1.file = st.file ∧
    (processApproval sendOk now businesses st b).2 = false := by
  unfold processApproval
  split
  · exact ⟨rfl, rfl, rfl⟩
  · split
    · exact ⟨rfl, rfl, rfl⟩
    · split
      · exact ⟨rfl, rfl, rfl⟩
      · split
        · exact ⟨rfl, rfl, rfl⟩
        · split
          · exact ⟨rfl, rfl, rfl⟩
          · have hnot : ¬ (sendOk b = true) := by simp [h]
            rw [if_neg hnot]
            exact ⟨rfl, rfl, rfl⟩

/-- C3: a dedup record is created only after the sender reports success.
When the send fails, neither the in-memory set nor the persisted file
gains any entry; when the event is out of window the whole state is
unchanged; any set or file entry the step adds is the booking's own key
added together with a successful send.  The approval sub-cycle enjoys the
same record-only-on-success property. -/
theorem record_only_on_success (parseDT : String → String → Int)
    (sendOk : Booking → Bool) (rh now : Int) (st : CycleState) (b : Booking)
    (businesses : List Business) :
    (shouldSendHours rh (parseDT b.date b.time - now) = false →
      (processBooking parseDT sendOk rh now st b).1 = st) ∧
    (sendOk b = false →
      (processBooking parseDT sendOk rh now st b).1.sentSet = st.sentSet ∧
      (processBooking parseDT sendOk rh now st b).1.file = st.file) ∧
    ((processBooking parseDT sendOk rh now st b).2 = true →
      sendOk b = true) ∧
    (∀ k, k ∈ (processBooking parseDT sendOk rh now st b).1.sentSet →
      k ∈ st.sentSet ∨ (k = reminderKey b ∧ sendOk b = true)) ∧
    (∀ k ts, (k, ts) ∈ (processBooking parseDT sendOk rh now st b).1.file →
      (k, ts) ∈ st.file ∨ (k = reminderKey b ∧ sendOk b = true)) ∧
    (sendOk b = false →
      (processApproval sendOk now businesses st b).1.sentSet = st.sentSet ∧
      (processApproval sendOk now businesses st b).1.file = st.file) ∧
    ((processApproval sendOk now businesses st b).2 = true →
      sendOk b = true) := by
  refine ⟨?_, ?_, ?_, ?_, ?_, ?_, ?_⟩
  · intro h
    rw [processBooking_skip_out_of_window h]
  · intro h
    exact ⟨(processBooking_fail_keeps_store h).1,
      (processBooking_fail_keeps_store h).2.1⟩
  · intro h
    by_cases hs : sendOk b = true
    · exact hs
    · have hfalse : sendOk b = false := by simpa using hs
      have hf : (processBooking parseDT sendOk rh now st b).2 = false :=
        (processBooking_fail_keeps_store hfalse).2.2
      rw [h] at hf
      cases hf
  · intro k hk
    exact processBooking_sentSet_sub hk
  · intro k ts hk
    exact processBooking_file_sub hk
  · intro h
    exact ⟨(processApproval_fail_keeps_store h).1,
      (processApproval_fail_keeps_store h).2.1⟩
  · intro h
    by_cases hs : sendOk b = true
    · exact hs
    · have hfalse : sendOk b = false := by simpa using hs
      have hf : (processApproval sendOk now businesses st b).2 = false :=
        (processApproval_fail_keeps_store hfalse).2.2
      rw [h] at hf
      cases hf

/-- Witness for record_only_on_success: with a failing sender, an
in-window confirmed booking leaves the store untouched. -/
theorem record_only_on_success_witness :
    ((fun _ : Booking => false)
      (Booking.mk ("bk5") ("biz5") ("2025-10-12") ("08:00") ("confirmed")
        ("0501234567") false) = false) ∧
    (processBooking (fun _ _ => 43200000) (fun _ => false) 12 0
      (CycleState.mk [] [] [])
      (Booking.mk ("bk5") ("biz5") ("2025-10-12") ("08:00") ("confirmed")
        ("0501234567") false)).1.sentSet = [] :=
  ⟨rfl, ((record_only_on_success (fun _ _ => 43200000) (fun _ => false) 12 0
    (CycleState.mk [] [] [])
    (Booking.mk ("bk5") ("biz5") ("2025-10-12") ("08:00") ("confirmed")
      ("0501234567") false) []).2.1 rfl).1⟩

/-- C5: the dedup key is the composite of id, date and time, so a booking
rescheduled to a different date or time (dates in the standard ten
character format) has a key distinct from its old key, and a store holding
only the old key does not block the new schedule: the step performs the
send and records the fresh key. -/
theorem rescheduled_key_fresh (b : Booking) (dOld tOld : String)
    (hd : b.date.length = 10) (hdOld : dOld.length = 10)
    (hne : b.date ≠ dOld ∨ b.time ≠ tOld) :
    reminderKey b ≠ b.id ++ ("-") ++ dOld ++ ("-") ++ tOld ∧
    (∀ (parseDT : String → String → Int) (sendOk : Booking → Bool)
        (rh now : Int) (st : CycleState),
      st.sentSet = [b.id ++ ("-") ++ dOld ++ ("-") ++ tOld] →
      b.status = ("confirmed") → b.client_phone ≠ ("") →
      shouldSendHours rh (parseDT b.date b.time - now) = true →
      sendOk b = true →
      (processBooking parseDT sendOk rh now st b).2 = true ∧
      reminderKey b ∈ (processBooking parseDT sendOk rh now st b).1.sentSet) := by
  have hkey : reminderKey b ≠ b.id ++ ("-") ++ dOld ++ ("-") ++ tOld := by
    intro hcontra
    unfold reminderKey at hcontra
    have hdata := congrArg String.data hcontra
    simp only [String.data_append, List.append_assoc] at hdata
    have h2 := List.append_cancel_left hdata
    have h3 := List.append_cancel_left h2
    have hlen : b.date.data.length = dOld.data.length := by
      have h4 : b.date.data.length = 10 := hd
      have h5 : dOld.data.length = 10 := hdOld
      omega
    obtain ⟨hdate, hrest⟩ := List.append_inj h3 hlen
    have htime := List.append_cancel_left hrest
    rcases hne with hne | hne
    · exact hne (String.ext hdate)
    · exact hne (String.ext htime)
  refine ⟨hkey, ?_⟩
  intro parseDT sendOk rh now st hset hstatus hphone hwin hsend
  have hnotin : reminderKey b ∉ st.sentSet := by
    rw [hset]
    intro hmem
    exact hkey (List.mem_singleton.mp hmem)
  unfold processBooking
  rw [if_neg (by simp [hstatus]), if_neg hphone, if_pos (by simp [hwin]),
    if_neg hnotin, if_pos (by simp [hsend])]
  exact ⟨rfl, by simp⟩

/-- Witness for rescheduled_key_fresh: a booking moved by one day fires
again although the store still holds the old key. -/
theorem rescheduled_key_fresh_witness :
    (("2025-10-13" : String).length = 10) ∧
    (processBooking (fun _ _ => 43200000) (fun _ => true) 12 0
      (CycleState.mk [("bk7-2025-10-12-08:00")] [] [])
      (Booking.mk ("bk7") ("biz7") ("2025-10-13") ("08:00") ("confirmed")
        ("0501234567") false)).2 = true :=
  ⟨by decide,
    ((rescheduled_key_fresh
      (Booking.mk ("bk7") ("biz7") ("2025-10-13") ("08:00") ("confirmed")
        ("0501234567") false)
      ("2025-10-12") ("08:00") (by decide) (by decide)
      (Or.inl (by decide))).2
      (fun _ _ => 43200000) (fun _ => true) 12 0
      (CycleState.mk [("bk7-2025-10-12-08:00")] [] [])
      (by decide) (by decide) (by decide) (by decide) (by decide)).1⟩

/-- C6: reloading the store drops every record strictly older than seven
days (given the file holds a single binding for the key), keeps a record
six days old, and the key set returned is exactly the keys of the pruned
file that is written back. -/
theorem store_load_prunes (file : List (String × Int)) (now : Int)
    (k : String) (t : Int) (hmem : (k, t) ∈ file) :
    (t < now - 7 * msPerDay → (∀ t', (k, t') ∈ file → t' = t) →
      k ∉ (loadSentItems file now).2) ∧
    (t = now - 6 * msPerDay → k ∈ (loadSentItems file now).2) ∧
    ((loadSentItems file now).1 = cleanItems file now ∧
      (loadSentItems file now).2 = ((loadSentItems file now).1).map Prod.fst) := by
  refine ⟨?_, ?_, rfl, rfl⟩
  · intro hold huniq hk
    unfold loadSentItems cleanItems at hk
    rcases List.mem_map.mp hk with ⟨p, hp, hfst⟩
    have hfilter := List.mem_filter.mp hp
    have hts : p.2 = t := huniq p.2 (by
      have : p = (k, p.2) := by
        rcases p with ⟨p1, p2⟩
        simp only at hfst
        rw [hfst]
      exact this ▸ hfilter.1)
    have hgt : now - 7 * msPerDay < p.2 := by simpa using hfilter.2
    omega
  · intro ht
    unfold loadSentItems cleanItems
    refine List.mem_map.mpr ⟨(k, t), List.mem_filter.mpr ⟨hmem, ?_⟩, rfl⟩
    simp only [decide_eq_true_eq]
    rw [ht]
    unfold msPerDay
    omega

/-- Witness for store_load_prunes: a six-day-old record survives reload. -/
theorem store_load_prunes_witness :
    ((("k1" : String), (100 : Int)) ∈ [((("k1") : String), (100 : Int))]) ∧
    ("k1") ∈ (loadSentItems [((("k1") : String), (100 : Int))]
      (100 + 6 * msPerDay)).2 :=
  ⟨by decide,
    (store_load_prunes [((("k1") : String), (100 : Int))] (100 + 6 * msPerDay)
      ("k1") 100 (by decide)).2.1 (by decide)⟩

/-- C7: phone normalization sends the two specified local forms to the
E.164 number, and an input already carrying the country code after
cleaning is not double-prefixed: the result is the plus sign followed by
the cleaned digits with no further 972 prepended. -/
theorem phone_normalization :
    formatPhoneNumber ("050-123-4567") = some ("+972501234567") ∧
    formatPhoneNumber ("0501234567") = some ("+972501234567") ∧
    formatPhoneNumber ("972501234567") = some ("+972501234567") ∧
    formatPhoneNumber ("+972501234567") = some ("+972501234567") ∧
    (∀ phone : String, phone ≠ ("") →
      strStartsWith
        (if strStartsWith (cleanDigits phone) ("0") then
          strDropOne (cleanDigits phone)
        else cleanDigits phone) ("972") = true →
      formatPhoneNumber phone =
        some (("+") ++
          (if strStartsWith (cleanDigits phone) ("0") then
            strDropOne (cleanDigits phone)
          else cleanDigits phone))) := by
  refine ⟨by decide, by decide, by decide, by decide, ?_⟩
  intro phone hne hcc
  unfold formatPhoneNumber
  rw [if_neg hne]
  simp [hcc]

/-- Witness for phone_normalization on an input already carrying the
country code. -/
theorem phone_normalization_witness :
    (("97250777") : String) ≠ ("") ∧
    formatPhoneNumber ("97250777") = some (("+") ++ ("97250777")) :=
  ⟨by decide,
    phone_normalization.2.2.2.2 ("97250777") (by decide) (by decide)⟩

/-- C8: for every wall-clock minute, second and millisecond reading, the
clock-aligned scheduler computes a strictly positive delay of at most
fifteen minutes that lands exactly on a quarter-hour boundary (the offset
within the hour becomes a multiple of fifteen minutes with zero seconds
and milliseconds), hence on the first such boundary strictly after now,
and every subsequent run after whole fifteen-minute intervals stays on
the boundary grid. -/
theorem clock_aligned_delay (m s ms : Nat) (_hm : m < 60) (hs : s < 60)
    (hms : ms < 1000) :
    0 < msUntilNextRun m s ms ∧
    msUntilNextRun m s ms ≤ alignedIntervalMs ∧
    ((m : Int) * 60000 + (s : Int) * 1000 + (ms : Int) +
        msUntilNextRun m s ms) % 900000 = 0 ∧
    (∀ k : Nat,
      ((m : Int) * 60000 + (s : Int) * 1000 + (ms : Int) +
          msUntilNextRun m s ms + (k : Int) * alignedIntervalMs) %
        900000 = 0) := by
  refine ⟨?_, ?_, ?_, fun k => ?_⟩ <;>
    simp only [msUntilNextRun, alignedIntervalMs] <;>
    omega

/-- Witness for clock_aligned_delay at one minute before a boundary. -/
theorem clock_aligned_delay_witness :
    (14 : Nat) < 60 ∧ (59 : Nat) < 60 ∧ (999 : Nat) < 1000 ∧
    0 < msUntilNextRun 14 59 999 :=
  ⟨by decide, by decide, by decide,
    (clock_aligned_delay 14 59 999 (by decide) (by decide) (by decide)).1⟩

end ReminderService
